import Mathlib

/-!
Verification of the `ISteamNetworkingMessages` messaging contract declared in
`src/NetworkCPP/ISteamNetworkingMessages.h`.

The repository contains only the interface header: virtual method signatures,
two callback structures, the interface-version string and its compile-time
assertion.  The transport implementation behind the interface is an external
collaborator and is not part of the repository, so the observable semantics of
the six operations is modelled here from the specification's words; the
interface-version string and its `static_assert` are embedded directly from
the source.
-/

namespace NetworkCPP

/-- Modelled from the spec: `SteamNetworkingIdentity` (declared in
`steamnetworkingtypes.h`, not in this repository) is an opaque value
identifying a remote endpoint, immutable and compared by value. -/
abbrev SteamNetworkingIdentity := Nat

/-- Modelled from the spec: the subset of `EResult` (declared outside this
repository) relevant to `SendMessageToUser`: local acceptance into the send
pipeline, or a synchronous no-connection error. -/
inductive EResult where
  | k_EResultOK
  | k_EResultNoConnection
  deriving DecidableEq, Repr

/-- Modelled from the spec: the subset of `ESteamNetworkingConnectionState`
(declared outside this repository) observed through
`GetSessionConnectionInfo`. -/
inductive ESteamNetworkingConnectionState where
  | k_ESteamNetworkingConnectionState_None
  | k_ESteamNetworkingConnectionState_Connecting
  | k_ESteamNetworkingConnectionState_Connected
  | k_ESteamNetworkingConnectionState_ProblemDetectedLocally
  deriving DecidableEq, Repr

/-- Modelled from the spec: the lifecycle of an implicit per-peer `Session`.
Absence of an entry models the `closed` / `timed-out` / never-created cases,
which are observationally "no session exists". -/
inductive SessionState where
  | pending
  | active
  | failed
  deriving DecidableEq, Repr

/-- The reliable-delivery bit of the `k_nSteamNetworkingSend_xxx` bitmask
passed as `nSendFlags` to `SendMessageToUser`. -/
def k_nSteamNetworkingSend_Reliable : Nat := 8

/-- Modelled from the spec: `SteamNetworkingMessage_t` (declared outside this
repository): an immutable byte payload, delivery flags, destination channel,
originating peer, plus a model-level send sequence number recording send
order. -/
structure SteamNetworkingMessage_t where
  m_identityPeer : SteamNetworkingIdentity
  m_nChannel : Int
  m_pData : List Nat
  m_nFlags : Nat
  m_seq : Nat
  deriving DecidableEq, Repr

/-- Whether a message was sent with the reliable flag set. -/
def SteamNetworkingMessage_t.reliable (m : SteamNetworkingMessage_t) : Bool :=
  m.m_nFlags &&& k_nSteamNetworkingSend_Reliable != 0

/-- Modelled from the spec: the payload of `SteamNetworkingMessagesSessionFailed_t.m_info`
(`SteamNetConnectionInfo_t`, declared outside this repository): who the failed
session was with and its last known state. -/
structure SteamNetConnectionInfo_t where
  m_identityRemote : SteamNetworkingIdentity
  m_eState : ESteamNetworkingConnectionState
  deriving DecidableEq, Repr

/-- Modelled from the spec: the two asynchronous callbacks posted by the
facade, `SteamNetworkingMessagesSessionRequest_t` and
`SteamNetworkingMessagesSessionFailed_t`. -/
inductive Callback where
  | sessionRequest (m_identityRemote : SteamNetworkingIdentity)
  | sessionFailed (m_info : SteamNetConnectionInfo_t)
  deriving DecidableEq, Repr

/-- Modelled from the spec: the observable state of the `MessagingFacade`:
per-peer sessions, open (peer, channel) pairs, pending received messages,
posted callbacks, the log of locally sent messages and the next send sequence
number. -/
structure MessagesState where
  sessions : List (SteamNetworkingIdentity × SessionState)
  channels : List (SteamNetworkingIdentity × Int)
  inbox : List SteamNetworkingMessage_t
  callbacks : List Callback
  outbox : List SteamNetworkingMessage_t
  nextSeq : Nat
  deriving DecidableEq, Repr

/-- Session lookup keyed by peer identity. -/
def sessionOf (st : MessagesState) (identityRemote : SteamNetworkingIdentity) :
    Option SessionState :=
  (st.sessions.find? (fun e => e.1 == identityRemote)).map Prod.snd

/-- Replace (or create) the session entry for a peer. -/
def setSession (st : MessagesState) (identityRemote : SteamNetworkingIdentity)
    (s : SessionState) : MessagesState :=
  { st with sessions :=
      (identityRemote, s) :: st.sessions.filter (fun e => e.1 != identityRemote) }

/-- Modelled from the spec: `ISteamNetworkingMessages::SendMessageToUser`
(implementation not in this repository).  Lazily creates a pending session on
first send, implicitly accepts a pending inbound session, opens the channel,
and queues the payload into the send pipeline.  It succeeds locally without
confirming remote receipt and posts no callback. -/
def SendMessageToUser (st : MessagesState) (identityRemote : SteamNetworkingIdentity)
    (pubData : List Nat) (nSendFlags : Nat) (nRemoteChannel : Int) :
    EResult × MessagesState :=
  let st1 :=
    match sessionOf st identityRemote with
    | none => setSession st identityRemote .pending
    | some .pending => setSession st identityRemote .active
    | some .active => st
    | some .failed => st
  let msg : SteamNetworkingMessage_t :=
    ⟨identityRemote, nRemoteChannel, pubData, nSendFlags, st.nextSeq⟩
  (EResult.k_EResultOK,
   { st1 with
      channels :=
        if st1.channels.contains (identityRemote, nRemoteChannel) then st1.channels
        else (identityRemote, nRemoteChannel) :: st1.channels,
      outbox := st1.outbox ++ [msg],
      nextSeq := st1.nextSeq + 1 })

/-- Modelled from the spec: `ISteamNetworkingMessages::ReceiveMessagesOnChannel`
(implementation not in this repository).  Non-blocking: returns up to
`nMaxMessages` pending messages addressed to `nLocalChannel`, in
arrival-processing order, and removes them from the pending set. -/
def ReceiveMessagesOnChannel (st : MessagesState) (nLocalChannel : Int)
    (nMaxMessages : Nat) : List SteamNetworkingMessage_t × MessagesState :=
  let msgs := (st.inbox.filter (fun m => m.m_nChannel == nLocalChannel)).take nMaxMessages
  (msgs, { st with inbox := st.inbox.filter (fun m => !(msgs.contains m)) })

/-- Modelled from the spec: `ISteamNetworkingMessages::AcceptSessionWithUser`
(implementation not in this repository).  Accepts a pending inbound session;
returns whether a pending or active session existed, and is a no-op on an
already active session. -/
def AcceptSessionWithUser (st : MessagesState)
    (identityRemote : SteamNetworkingIdentity) : Bool × MessagesState :=
  match sessionOf st identityRemote with
  | some .pending => (true, setSession st identityRemote .active)
  | some .active => (true, st)
  | _ => (false, st)

/-- Modelled from the spec: `ISteamNetworkingMessages::CloseSessionWithUser`
(implementation not in this repository).  Tears down all channels and the
session with the peer immediately; returns whether a session existed. -/
def CloseSessionWithUser (st : MessagesState)
    (identityRemote : SteamNetworkingIdentity) : Bool × MessagesState :=
  ((sessionOf st identityRemote).isSome,
   { st with
      sessions := st.sessions.filter (fun e => e.1 != identityRemote),
      channels := st.channels.filter (fun e => e.1 != identityRemote) })

/-- Modelled from the spec: `ISteamNetworkingMessages::CloseChannelWithUser`
(implementation not in this repository).  Tears down the single channel
`(identityRemote, nLocalChannel)`; once no open channel to the peer remains,
the session itself is closed. -/
def CloseChannelWithUser (st : MessagesState)
    (identityRemote : SteamNetworkingIdentity) (nLocalChannel : Int) :
    Bool × MessagesState :=
  let had := st.channels.contains (identityRemote, nLocalChannel)
  let channels1 := st.channels.filter (fun e => e != (identityRemote, nLocalChannel))
  let sessions1 :=
    if channels1.any (fun e => e.1 == identityRemote) then st.sessions
    else st.sessions.filter (fun e => e.1 != identityRemote)
  (had, { st with channels := channels1, sessions := sessions1 })

/-- Modelled from the spec: the mapping from session lifecycle to the
connection state reported by `GetSessionConnectionInfo`. -/
def connStateOf : Option SessionState → ESteamNetworkingConnectionState
  | none => .k_ESteamNetworkingConnectionState_None
  | some .pending => .k_ESteamNetworkingConnectionState_Connecting
  | some .active => .k_ESteamNetworkingConnectionState_Connected
  | some .failed => .k_ESteamNetworkingConnectionState_ProblemDetectedLocally

/-- Modelled from the spec: `ISteamNetworkingMessages::GetSessionConnectionInfo`
(implementation not in this repository).  Read-only diagnostic snapshot:
returns the connection state of the session with the peer, or the `None`
state when no session exists. -/
def GetSessionConnectionInfo (st : MessagesState)
    (identityRemote : SteamNetworkingIdentity) : ESteamNetworkingConnectionState :=
  connStateOf (sessionOf st identityRemote)

/-- Modelled from the spec: arrival of an inbound message from a peer
(transport behaviour, not in this repository).  When no session with the
sender exists, a pending session is created and a
`SteamNetworkingMessagesSessionRequest_t` callback is posted. -/
def onInboundMessage (st : MessagesState) (m : SteamNetworkingMessage_t) :
    MessagesState :=
  match sessionOf st m.m_identityPeer with
  | none =>
      { st with
          sessions := (m.m_identityPeer, SessionState.pending) :: st.sessions,
          callbacks := st.callbacks ++ [Callback.sessionRequest m.m_identityPeer],
          inbox := st.inbox ++ [m] }
  | some _ => { st with inbox := st.inbox ++ [m] }

/-- Modelled from the spec: asynchronous session failure (handshake failure
or mid-session disruption; transport behaviour, not in this repository).
Marks the session failed and posts a
`SteamNetworkingMessagesSessionFailed_t` callback carrying the last known
connection info. -/
def onSessionFailure (st : MessagesState)
    (identityRemote : SteamNetworkingIdentity) : MessagesState :=
  match sessionOf st identityRemote with
  | none => st
  | some _ =>
      { setSession st identityRemote .failed with
          callbacks := st.callbacks ++
            [Callback.sessionFailed
              ⟨identityRemote,
               ESteamNetworkingConnectionState.k_ESteamNetworkingConnectionState_ProblemDetectedLocally⟩] }

/-- Modelled from the spec: idle-timeout reclamation of a session by the
transport (not in this repository).  Frees the session and its channels; no
callback is posted and pending messages are untouched. -/
def idleTimeoutReclaim (st : MessagesState)
    (identityRemote : SteamNetworkingIdentity) : MessagesState :=
  { st with
      sessions := st.sessions.filter (fun e => e.1 != identityRemote),
      channels := st.channels.filter (fun e => e.1 != identityRemote) }

/-- Modelled from the spec: the events that can touch the facade state — the
six interface calls plus the transport-driven events (inbound message,
asynchronous session failure, idle-timeout reclamation). -/
inductive ApiOp where
  | send (identityRemote : SteamNetworkingIdentity) (pubData : List Nat)
      (nSendFlags : Nat) (nRemoteChannel : Int)
  | receive (nLocalChannel : Int) (nMaxMessages : Nat)
  | accept (identityRemote : SteamNetworkingIdentity)
  | closeSession (identityRemote : SteamNetworkingIdentity)
  | closeChannel (identityRemote : SteamNetworkingIdentity) (nLocalChannel : Int)
  | query (identityRemote : SteamNetworkingIdentity)
  | inbound (m : SteamNetworkingMessage_t)
  | sessionFailure (identityRemote : SteamNetworkingIdentity)
  | idleTimeout (identityRemote : SteamNetworkingIdentity)
  deriving DecidableEq, Repr

/-- State after one event. -/
def applyOp (st : MessagesState) : ApiOp → MessagesState
  | .send p d f c => (SendMessageToUser st p d f c).2
  | .receive c k => (ReceiveMessagesOnChannel st c k).2
  | .accept p => (AcceptSessionWithUser st p).2
  | .closeSession p => (CloseSessionWithUser st p).2
  | .closeChannel p c => (CloseChannelWithUser st p c).2
  | .query _ => st
  | .inbound m => onInboundMessage st m
  | .sessionFailure p => onSessionFailure st p
  | .idleTimeout p => idleTimeoutReclaim st p

/-- State after a sequence of events. -/
def applyOps (st : MessagesState) (ops : List ApiOp) : MessagesState :=
  ops.foldl applyOp st

/-- Whether an event sends a message to, or receives a message from, the
given peer (the events that can resurrect a session with that peer). -/
def sendsOrReceivesWith (identityRemote : SteamNetworkingIdentity) :
    ApiOp → Bool
  | .send q _ _ _ => q == identityRemote
  | .inbound m => m.m_identityPeer == identityRemote
  | _ => false

/-- Modelled from the spec: one step of the transport delivering the reliable
stream of a (peer, channel) pair.  The state is (messages still in flight,
messages delivered so far); a step either delivers the oldest in-flight
message or loses it (session failure / reclamation before delivery).
Reliable messages are never reordered or duplicated by the transport. -/
inductive DeliverStep :
    List SteamNetworkingMessage_t × List SteamNetworkingMessage_t →
    List SteamNetworkingMessage_t × List SteamNetworkingMessage_t → Prop where
  | deliver (m : SteamNetworkingMessage_t) (rest delivered : List SteamNetworkingMessage_t) :
      DeliverStep (m :: rest, delivered) (rest, delivered ++ [m])
  | lose (m : SteamNetworkingMessage_t) (rest delivered : List SteamNetworkingMessage_t) :
      DeliverStep (m :: rest, delivered) (rest, delivered)

/-- Reachability under transport delivery steps. -/
def DeliverSteps :
    List SteamNetworkingMessage_t × List SteamNetworkingMessage_t →
    List SteamNetworkingMessage_t × List SteamNetworkingMessage_t → Prop :=
  Relation.ReflTransGen DeliverStep

/-- The reliable messages this endpoint has sent to peer `p` on channel `c`,
in send order. -/
def reliableSent (st : MessagesState) (p : SteamNetworkingIdentity) (c : Int) :
    List SteamNetworkingMessage_t :=
  st.outbox.filter (fun m =>
    m.m_identityPeer == p && m.m_nChannel == c && m.reliable)

/-- Send sequence numbers strictly increase along the send log. -/
def OutboxSorted (st : MessagesState) : Prop :=
  st.outbox.Pairwise (fun a b => a.m_seq < b.m_seq)

instance (st : MessagesState) : Decidable (OutboxSorted st) := by
  unfold OutboxSorted; infer_instance

/-- The interface-version string, from the source:
`#define STEAMNETWORKINGMESSAGES_INTERFACE_VERSION "SteamNetworkingMessages002"`. -/
def STEAMNETWORKINGMESSAGES_INTERFACE_VERSION : String :=
  "SteamNetworkingMessages002"

/-- Modelled from the spec: a C struct field as laid out by the compiler —
its declared size and alignment requirement (the member types
`SteamNetworkingIdentity` and `SteamNetConnectionInfo_t` are declared outside
this repository, so sizes and alignments stay abstract). -/
structure CField where
  fname : String
  fsize : Nat
  falign : Nat
  deriving DecidableEq, Repr

/-- Round `n` up to a multiple of `a`. -/
def alignUp (n a : Nat) : Nat := ((n + a - 1) / a) * a

/-- Modelled from the spec: the C/C++ struct layout algorithm under
`#pragma pack(packVal)`: each field is placed at the current offset rounded
up to the minimum of its alignment and `packVal`; returns the field offsets
and the end offset after the last field. -/
def layoutFrom (packVal off : Nat) : List CField → List Nat × Nat
  | [] => ([], off)
  | f :: rest =>
      let o := alignUp off (min f.falign packVal)
      let r := layoutFrom packVal (o + f.fsize) rest
      (o :: r.1, r.2)

/-- A computed struct layout: field sizes in declaration order, their byte
offsets, and the total struct size. -/
structure CStructLayout where
  fieldSizes : List Nat
  offsets : List Nat
  size : Nat
  deriving DecidableEq, Repr

/-- Modelled from the spec: full struct layout under `#pragma pack(packVal)`,
including trailing padding up to the struct's (packed) alignment. -/
def structLayout (packVal : Nat) (fields : List CField) : CStructLayout :=
  let r := layoutFrom packVal 0 fields
  ⟨fields.map (fun f => f.fsize), r.1,
   alignUp r.2 (min packVal (fields.foldr (fun f a => max f.falign a) 1))⟩

/-- Layout of `SteamNetworkingMessagesSessionRequest_t` as declared in the
source: a single data member `m_identityRemote`, inside `#pragma pack(push,1)`. -/
def SteamNetworkingMessagesSessionRequest_t_layout (idSize idAlign : Nat) :
    CStructLayout :=
  structLayout 1 [⟨"m_identityRemote", idSize, idAlign⟩]

/-- Layout of `SteamNetworkingMessagesSessionFailed_t` as declared in the
source: a single data member `m_info`, inside `#pragma pack(push,1)`. -/
def SteamNetworkingMessagesSessionFailed_t_layout (infoSize infoAlign : Nat) :
    CStructLayout :=
  structLayout 1 [⟨"m_info", infoSize, infoAlign⟩]

/-! ### Helper lemmas about the association-list state -/

lemma find?_key_filter_ne {β : Type} (l : List (Nat × β)) {p q : Nat} (h : p ≠ q) :
    (l.filter (fun e => e.1 != q)).find? (fun e => e.1 == p)
      = l.find? (fun e => e.1 == p) := by
  induction l with
  | nil => rfl
  | cons e t ih =>
      by_cases hq : e.1 = q
      · have hp : (q == p) = false := by
          simp
          exact fun hpq => h hpq.symm
        simp [List.filter_cons, List.find?_cons, hq, hp, ih]
      · by_cases hp : e.1 = p
        · simp [List.filter_cons, List.find?_cons, hq, hp, h]
        · simp [List.filter_cons, List.find?_cons, hq, hp, ih]

lemma find?_key_filter_self {β : Type} (l : List (Nat × β)) (p : Nat) :
    (l.filter (fun e => e.1 != p)).find? (fun e => e.1 == p) = none := by
  rw [List.find?_eq_none]
  intro x hx
  have hmem := List.of_mem_filter hx
  simp at hmem ⊢
  exact hmem

lemma find?_none_filter {β : Type} (l : List (Nat × β)) (g : Nat × β → Bool) (p : Nat)
    (h : l.find? (fun e => e.1 == p) = none) :
    (l.filter g).find? (fun e => e.1 == p) = none := by
  rw [List.find?_eq_none] at h ⊢
  exact fun x hx => h x (List.mem_of_mem_filter hx)

lemma sessionOf_setSession_self (st : MessagesState) (q : SteamNetworkingIdentity)
    (s : SessionState) : sessionOf (setSession st q s) q = some s := by
  simp [sessionOf, setSession, List.find?_cons]

lemma sessionOf_setSession_ne (st : MessagesState) {p q : SteamNetworkingIdentity}
    (h : p ≠ q) (s : SessionState) :
    sessionOf (setSession st q s) p = sessionOf st p := by
  have hq : (q == p) = false := by
    simp
    exact fun hpq => h hpq.symm
  simp [sessionOf, setSession, List.find?_cons, hq, find?_key_filter_ne _ h]

lemma sessionOf_closeSession_self (st : MessagesState) (p : SteamNetworkingIdentity) :
    sessionOf (CloseSessionWithUser st p).2 p = none := by
  simp [sessionOf, CloseSessionWithUser, find?_key_filter_self]

lemma sessionOf_idleTimeout_self (st : MessagesState) (p : SteamNetworkingIdentity) :
    sessionOf (idleTimeoutReclaim st p) p = none := by
  simp [sessionOf, idleTimeoutReclaim, find?_key_filter_self]

lemma sessions_SendMessageToUser (st : MessagesState) (q : SteamNetworkingIdentity)
    (d : List Nat) (f : Nat) (c : Int) :
    (SendMessageToUser st q d f c).2.sessions =
      (match sessionOf st q with
       | none => setSession st q .pending
       | some .pending => setSession st q .active
       | some .active => st
       | some .failed => st).sessions := rfl

lemma sessionOf_eq_of_sessions_eq {st st' : MessagesState}
    (h : st.sessions = st'.sessions) (p : SteamNetworkingIdentity) :
    sessionOf st p = sessionOf st' p := by
  simp [sessionOf, h]

/-- Any event that neither sends a message to nor receives a message from
peer `p` cannot create a session with `p`. -/
lemma sessionOf_applyOp_none {st : MessagesState} {p : SteamNetworkingIdentity}
    (op : ApiOp) (h0 : sessionOf st p = none)
    (hop : sendsOrReceivesWith p op = false) :
    sessionOf (applyOp st op) p = none := by
  have h0' : st.sessions.find? (fun e => e.1 == p) = none := by
    simpa [sessionOf, Option.map_eq_none'] using h0
  cases op with
  | send q d f c =>
      have hq : p ≠ q := by
        intro he
        simp [sendsOrReceivesWith, he] at hop
      have hs := sessionOf_eq_of_sessions_eq (sessions_SendMessageToUser st q d f c) p
      show sessionOf (SendMessageToUser st q d f c).2 p = none
      rw [hs]
      rcases hm : sessionOf st q with _ | s
      · show sessionOf (setSession st q SessionState.pending) p = none
        rw [sessionOf_setSession_ne st hq]; exact h0
      · cases s with
        | pending =>
            show sessionOf (setSession st q SessionState.active) p = none
            rw [sessionOf_setSession_ne st hq]; exact h0
        | active => exact h0
        | failed => exact h0
  | receive c k =>
      show sessionOf (ReceiveMessagesOnChannel st c k).2 p = none
      exact h0
  | accept q =>
      show sessionOf (AcceptSessionWithUser st q).2 p = none
      rcases hm : sessionOf st q with _ | s
      · simp only [AcceptSessionWithUser, hm]
        exact h0
      · cases s with
        | pending =>
            have hq : p ≠ q := by
              intro he
              rw [← he, h0] at hm
              exact Option.noConfusion hm
            simp only [AcceptSessionWithUser, hm]
            show sessionOf (setSession st q SessionState.active) p = none
            rw [sessionOf_setSession_ne st hq]; exact h0
        | active => simp only [AcceptSessionWithUser, hm]; exact h0
        | failed => simp only [AcceptSessionWithUser, hm]; exact h0
  | closeSession q =>
      show sessionOf (CloseSessionWithUser st q).2 p = none
      simp only [CloseSessionWithUser, sessionOf]
      rw [find?_none_filter _ _ p h0']
      rfl
  | closeChannel q c =>
      show sessionOf (CloseChannelWithUser st q c).2 p = none
      simp only [CloseChannelWithUser, sessionOf]
      split
      · exact h0
      · rw [find?_none_filter _ _ p h0']
        rfl
  | query q => exact h0
  | inbound m =>
      have hq : p ≠ m.m_identityPeer := by
        intro he
        simp [sendsOrReceivesWith, he] at hop
      show sessionOf (onInboundMessage st m) p = none
      rcases hm : sessionOf st m.m_identityPeer with _ | s
      · have hne : (m.m_identityPeer == p) = false := by
          simp
          exact fun hh => hq hh.symm
        simp only [onInboundMessage, hm]
        simp only [sessionOf, List.find?_cons, hne]
        exact h0
      · simp only [onInboundMessage, hm]
        exact h0
  | sessionFailure q =>
      show sessionOf (onSessionFailure st q) p = none
      rcases hm : sessionOf st q with _ | s
      · simp only [onSessionFailure, hm]
        exact h0
      · have hq : p ≠ q := by
          intro he
          rw [← he, h0] at hm
          exact Option.noConfusion hm
        simp only [onSessionFailure, hm]
        show sessionOf (setSession st q SessionState.failed) p = none
        rw [sessionOf_setSession_ne st hq]; exact h0
  | idleTimeout q =>
      show sessionOf (idleTimeoutReclaim st q) p = none
      simp only [idleTimeoutReclaim, sessionOf]
      rw [find?_none_filter _ _ p h0']
      rfl

lemma sessionOf_applyOps_none {p : SteamNetworkingIdentity} (ops : List ApiOp) :
    ∀ st : MessagesState, sessionOf st p = none →
      (∀ op ∈ ops, sendsOrReceivesWith p op = false) →
      sessionOf (applyOps st ops) p = none := by
  induction ops with
  | nil => intro st h0 _; exact h0
  | cons op rest ih =>
      intro st h0 h
      have h1 : applyOps st (op :: rest) = applyOps (applyOp st op) rest := rfl
      rw [h1]
      exact ih _ (sessionOf_applyOp_none op h0 (h op (List.mem_cons_self op rest)))
        (fun o ho => h o (List.mem_cons_of_mem op ho))

/-! ### Helper lemmas about transport delivery -/

lemma deliverSteps_append_sublist
    {s t : List SteamNetworkingMessage_t × List SteamNetworkingMessage_t}
    (h : DeliverSteps s t) : List.Sublist (t.2 ++ t.1) (s.2 ++ s.1) := by
  induction h with
  | refl => exact List.Sublist.refl _
  | tail hab hbc ih =>
      cases hbc with
      | deliver m rest delivered =>
          refine List.Sublist.trans ?_ ih
          rw [List.append_assoc]
          exact List.Sublist.refl _
      | lose m rest delivered =>
          refine List.Sublist.trans ?_ ih
          exact (List.sublist_cons_self m rest).append_left delivered

lemma deliverSteps_delivered_sublist
    (sent : List SteamNetworkingMessage_t)
    {t : List SteamNetworkingMessage_t × List SteamNetworkingMessage_t}
    (h : DeliverSteps (sent, []) t) : List.Sublist t.2 sent := by
  have h1 := deliverSteps_append_sublist h
  simp only [List.nil_append] at h1
  exact List.Sublist.trans (List.sublist_append_left t.2 t.1) h1

lemma deliverSteps_lose_all (sent : List SteamNetworkingMessage_t) :
    DeliverSteps (sent, []) ([], []) := by
  induction sent with
  | nil => exact Relation.ReflTransGen.refl
  | cons m rest ih => exact Relation.ReflTransGen.head (DeliverStep.lose m rest []) ih

/-! ### Helper lemmas about packed layout -/

lemma alignUp_one (n : Nat) : alignUp n 1 = n := by
  simp [alignUp]

/-! ### Sample data for instantiating the claim theorems -/

/-- A concrete reliable message: peer 7, channel 1, sequence number 0. -/
def msgA : SteamNetworkingMessage_t := ⟨7, 1, [104, 105], 8, 0⟩

/-- A concrete reliable message: peer 7, channel 1, sequence number 1. -/
def msgB : SteamNetworkingMessage_t := ⟨7, 1, [119], 8, 1⟩

/-- A concrete facade state: active session with peer 7, channel 1 open,
`msgA` pending in the inbox, `msgA` and `msgB` in the send log. -/
def sampleState : MessagesState :=
  ⟨[(7, SessionState.active)], [(7, 1)], [msgA], [], [msgA, msgB], 2⟩

/-- A concrete facade state with a pending inbound session from peer 7. -/
def pendingState : MessagesState :=
  ⟨[(7, SessionState.pending)], [], [], [], [], 0⟩

/-- A concrete facade state with no sessions at all. -/
def emptyState : MessagesState := ⟨[], [], [], [], [], 0⟩

/-- A concrete facade state: active session with peer 7 and three open
channels — (7, 1), (7, 2) and (9, 5). -/
def channelsState : MessagesState :=
  ⟨[(7, SessionState.active)], [(7, 1), (7, 2), (9, 5)], [], [], [], 0⟩

/-! ### The claims -/

/-- C1: reliable messages sent via `SendMessageToUser` on a (peer, channel)
pair that are delivered are delivered at most once each and in send order:
any delivered sequence reachable by transport steps from the reliable send
stream is a sublist of it (send order preserved), strictly increasing in send
sequence number, with no message delivered twice. -/
theorem c1_reliable_in_order_at_most_once
    (st : MessagesState) (P : SteamNetworkingIdentity) (C : Int)
    (t : List SteamNetworkingMessage_t × List SteamNetworkingMessage_t)
    (hsort : OutboxSorted st)
    (hdel : DeliverSteps (reliableSent st P C, []) t) :
    List.Sublist t.2 (reliableSent st P C) ∧
    t.2.Pairwise (fun a b => a.m_seq < b.m_seq) ∧
    t.2.Nodup ∧
    ∀ m ∈ t.2, t.2.count m = 1 := by
  have hsub := deliverSteps_delivered_sublist _ hdel
  have hpair : (reliableSent st P C).Pairwise (fun a b => a.m_seq < b.m_seq) :=
    List.Pairwise.filter _ hsort
  have hpair2 := hpair.sublist hsub
  have hnodup : t.2.Nodup :=
    hpair2.imp (fun h he => absurd (he ▸ h) (lt_irrefl _))
  exact ⟨hsub, hpair2, hnodup, fun m hm => List.count_eq_one_of_mem hnodup hm⟩

/-- Witness for C1 at a concrete state: delivering the first of the two
reliable messages sent to peer 7 on channel 1. -/
theorem c1_reliable_in_order_at_most_once_witness :
    OutboxSorted sampleState ∧
    List.Sublist [msgA] (reliableSent sampleState 7 1) ∧ [msgA].Nodup := by
  have hstream : reliableSent sampleState 7 1 = [msgA, msgB] := by decide
  have h := c1_reliable_in_order_at_most_once sampleState 7 1 ([msgB], [msgA])
    (by decide)
    (by rw [hstream]
        exact Relation.ReflTransGen.single (DeliverStep.deliver msgA [msgB] []))
  exact ⟨by decide, h.1, h.2.2.1⟩

/-- C2: `ReceiveMessagesOnChannel` returns only messages addressed to the
requested channel, never a message sent on a different channel. -/
theorem c2_receive_only_requested_channel
    (st : MessagesState) (nLocalChannel : Int) (nMaxMessages : Nat)
    (m : SteamNetworkingMessage_t)
    (hm : m ∈ (ReceiveMessagesOnChannel st nLocalChannel nMaxMessages).1) :
    m.m_nChannel = nLocalChannel := by
  have h1 := List.mem_of_mem_take hm
  have h2 := List.of_mem_filter h1
  simpa using h2

/-- Witness for C2 at a concrete state: the pending message on channel 1 is
returned by a receive on channel 1 and indeed carries channel 1. -/
theorem c2_receive_only_requested_channel_witness :
    msgA ∈ (ReceiveMessagesOnChannel sampleState 1 5).1 ∧ msgA.m_nChannel = 1 :=
  ⟨by decide, c2_receive_only_requested_channel sampleState 1 5 msgA (by decide)⟩

/-- C3: when a pending inbound session from a peer exists, sending to that
peer performs exactly the session transition `AcceptSessionWithUser` would
perform, for any payload, flags and channel: the resulting session tables
agree and the session with the peer becomes active. -/
theorem c3_send_implicitly_accepts
    (st : MessagesState) (P : SteamNetworkingIdentity)
    (pubData : List Nat) (nSendFlags : Nat) (nRemoteChannel : Int)
    (hp : sessionOf st P = some SessionState.pending) :
    (SendMessageToUser st P pubData nSendFlags nRemoteChannel).2.sessions
      = (AcceptSessionWithUser st P).2.sessions ∧
    sessionOf (SendMessageToUser st P pubData nSendFlags nRemoteChannel).2 P
      = some SessionState.active := by
  constructor
  · rw [sessions_SendMessageToUser, hp]
    simp only [AcceptSessionWithUser, hp]
  · have hs := sessionOf_eq_of_sessions_eq
      (sessions_SendMessageToUser st P pubData nSendFlags nRemoteChannel) P
    rw [hs, hp]
    exact sessionOf_setSession_self st P _

/-- Witness for C3 at a concrete state with a pending session from peer 7. -/
theorem c3_send_implicitly_accepts_witness :
    sessionOf pendingState 7 = some SessionState.pending ∧
    sessionOf (SendMessageToUser pendingState 7 [104] 8 0).2 7
      = some SessionState.active :=
  ⟨by decide,
   (c3_send_implicitly_accepts pendingState 7 [104] 8 0 (by decide)).2⟩

/-- C4: `AcceptSessionWithUser` returns false when no session with the peer
is pending or active; on an already active session it returns true and
leaves the state unchanged. -/
theorem c4_accept_return_and_noop (st : MessagesState) (P : SteamNetworkingIdentity) :
    ((sessionOf st P ≠ some SessionState.pending ∧
      sessionOf st P ≠ some SessionState.active) →
      (AcceptSessionWithUser st P).1 = false) ∧
    (sessionOf st P = some SessionState.active →
      (AcceptSessionWithUser st P).1 = true ∧
      (AcceptSessionWithUser st P).2 = st) := by
  constructor
  · rintro ⟨h1, h2⟩
    rcases hm : sessionOf st P with _ | s
    · simp [AcceptSessionWithUser, hm]
    · cases s with
      | pending => exact absurd hm h1
      | active => exact absurd hm h2
      | failed => simp [AcceptSessionWithUser, hm]
  · intro h
    simp [AcceptSessionWithUser, h]

/-- Witness for C4: a state with no session at all (returns false) and a
state with an active session (returns true, state unchanged). -/
theorem c4_accept_return_and_noop_witness :
    (sessionOf emptyState 7 ≠ some SessionState.pending ∧
     sessionOf emptyState 7 ≠ some SessionState.active) ∧
    sessionOf sampleState 7 = some SessionState.active ∧
    (AcceptSessionWithUser emptyState 7).1 = false ∧
    ((AcceptSessionWithUser sampleState 7).1 = true ∧
     (AcceptSessionWithUser sampleState 7).2 = sampleState) :=
  ⟨by decide, by decide,
   (c4_accept_return_and_noop emptyState 7).1 (by decide),
   (c4_accept_return_and_noop sampleState 7).2 (by decide)⟩

/-- C5: after `CloseSessionWithUser`, and until a message to or from the
peer is sent or received, `GetSessionConnectionInfo` reports the `None`
state; in general it reports `None` whenever no session with the peer
exists. -/
theorem c5_none_after_close_until_message
    (st : MessagesState) (P : SteamNetworkingIdentity) (ops : List ApiOp)
    (h : ∀ op ∈ ops, sendsOrReceivesWith P op = false) :
    GetSessionConnectionInfo (applyOps (CloseSessionWithUser st P).2 ops) P
      = ESteamNetworkingConnectionState.k_ESteamNetworkingConnectionState_None ∧
    ∀ s : MessagesState, sessionOf s P = none →
      GetSessionConnectionInfo s P
        = ESteamNetworkingConnectionState.k_ESteamNetworkingConnectionState_None := by
  constructor
  · have h1 := sessionOf_applyOps_none ops _ (sessionOf_closeSession_self st P) h
    simp [GetSessionConnectionInfo, h1, connStateOf]
  · intro s hs
    simp [GetSessionConnectionInfo, hs, connStateOf]

/-- Witness for C5: close the session with peer 7, then run events that
neither send to nor receive from peer 7 (including a failure event and a
timeout for peer 7 and traffic with peer 9); the query still reports
`None`. -/
theorem c5_none_after_close_until_message_witness :
    (∀ op ∈ ([ApiOp.accept 7, ApiOp.query 7, ApiOp.send 9 [1] 8 0,
              ApiOp.closeChannel 7 1, ApiOp.sessionFailure 7,
              ApiOp.idleTimeout 7, ApiOp.receive 1 5] : List ApiOp),
        sendsOrReceivesWith 7 op = false) ∧
    GetSessionConnectionInfo
      (applyOps (CloseSessionWithUser sampleState 7).2
        [ApiOp.accept 7, ApiOp.query 7, ApiOp.send 9 [1] 8 0,
         ApiOp.closeChannel 7 1, ApiOp.sessionFailure 7,
         ApiOp.idleTimeout 7, ApiOp.receive 1 5]) 7
      = ESteamNetworkingConnectionState.k_ESteamNetworkingConnectionState_None :=
  ⟨by decide,
   (c5_none_after_close_until_message sampleState 7
     [ApiOp.accept 7, ApiOp.query 7, ApiOp.send 9 [1] 8 0,
      ApiOp.closeChannel 7 1, ApiOp.sessionFailure 7,
      ApiOp.idleTimeout 7, ApiOp.receive 1 5] (by decide)).1⟩

lemma callbacks_SendMessageToUser (st : MessagesState) (q : SteamNetworkingIdentity)
    (d : List Nat) (f : Nat) (c : Int) :
    (SendMessageToUser st q d f c).2.callbacks = st.callbacks := by
  have hcb : (SendMessageToUser st q d f c).2.callbacks =
      (match sessionOf st q with
       | none => setSession st q .pending
       | some .pending => setSession st q .active
       | some .active => st
       | some .failed => st).callbacks := rfl
  rw [hcb]
  rcases hm : sessionOf st q with _ | s
  · rfl
  · cases s <;> rfl

/-- C6: asynchronous session failures are reported only through the
`SteamNetworkingMessagesSessionFailed_t` callback, never through the return
value of `SendMessageToUser`: a send always returns locally-accepted and
posts no callback, the failure event is what posts the `sessionFailed`
callback, and a successful send return does not imply delivery — every send
stream admits a transport run in which nothing is ever delivered. -/
theorem c6_failures_reported_async_only
    (st : MessagesState) (P Q : SteamNetworkingIdentity) (pubData : List Nat)
    (nSendFlags : Nat) (nRemoteChannel : Int) (s : SessionState)
    (hq : sessionOf st Q = some s) :
    (SendMessageToUser st P pubData nSendFlags nRemoteChannel).1
      = EResult.k_EResultOK ∧
    (SendMessageToUser st P pubData nSendFlags nRemoteChannel).2.callbacks
      = st.callbacks ∧
    (onSessionFailure st Q).callbacks = st.callbacks ++
      [Callback.sessionFailed
        ⟨Q, ESteamNetworkingConnectionState.k_ESteamNetworkingConnectionState_ProblemDetectedLocally⟩] ∧
    ∀ sent : List SteamNetworkingMessage_t, DeliverSteps (sent, []) ([], []) := by
  refine ⟨rfl, callbacks_SendMessageToUser st P pubData nSendFlags nRemoteChannel,
    ?_, deliverSteps_lose_all⟩
  simp only [onSessionFailure, hq]

/-- Witness for C6 at a concrete state with an active session with peer 7. -/
theorem c6_failures_reported_async_only_witness :
    sessionOf sampleState 7 = some SessionState.active ∧
    (SendMessageToUser sampleState 7 [1] 8 0).1 = EResult.k_EResultOK ∧
    (onSessionFailure sampleState 7).callbacks = sampleState.callbacks ++
      [Callback.sessionFailed
        ⟨7, ESteamNetworkingConnectionState.k_ESteamNetworkingConnectionState_ProblemDetectedLocally⟩] := by
  have h := c6_failures_reported_async_only sampleState 7 7 [1] 8 0
    SessionState.active (by decide)
  exact ⟨by decide, h.1, h.2.2.1⟩

/-- C7: idle-timeout reclamation of a session posts no callback of any kind;
its only observable effects are on the session tables — a subsequent
`GetSessionConnectionInfo` reports `None` and the message queues are
untouched. -/
theorem c7_idle_timeout_is_silent (st : MessagesState) (P : SteamNetworkingIdentity) :
    (idleTimeoutReclaim st P).callbacks = st.callbacks ∧
    GetSessionConnectionInfo (idleTimeoutReclaim st P) P
      = ESteamNetworkingConnectionState.k_ESteamNetworkingConnectionState_None ∧
    (idleTimeoutReclaim st P).inbox = st.inbox ∧
    (idleTimeoutReclaim st P).outbox = st.outbox := by
  refine ⟨rfl, ?_, rfl, rfl⟩
  simp [GetSessionConnectionInfo, sessionOf_idleTimeout_self, connStateOf]

/-- C8: `CloseChannelWithUser` tears down exactly the one (peer, channel)
pair: every other open channel — to the same peer or to others — survives,
and while some other channel to the peer stays open the session table is
untouched; once no open channel to the peer remains the session itself is
closed, and new inbound data from that peer then posts a fresh
`SteamNetworkingMessagesSessionRequest_t` callback. -/
theorem c8_close_channel_then_session
    (st : MessagesState) (P : SteamNetworkingIdentity) (C : Int) :
    (∀ e : SteamNetworkingIdentity × Int, e ≠ (P, C) →
      (e ∈ (CloseChannelWithUser st P C).2.channels ↔ e ∈ st.channels)) ∧
    (P, C) ∉ (CloseChannelWithUser st P C).2.channels ∧
    ((∃ d ∈ (CloseChannelWithUser st P C).2.channels, d.1 = P) →
      (CloseChannelWithUser st P C).2.sessions = st.sessions) ∧
    ((∀ d ∈ (CloseChannelWithUser st P C).2.channels, d.1 ≠ P) →
      sessionOf (CloseChannelWithUser st P C).2 P = none ∧
      ∀ m : SteamNetworkingMessage_t, m.m_identityPeer = P →
        (onInboundMessage (CloseChannelWithUser st P C).2 m).callbacks
          = (CloseChannelWithUser st P C).2.callbacks
              ++ [Callback.sessionRequest P]) := by
  have hch : (CloseChannelWithUser st P C).2.channels
      = st.channels.filter (fun d => d != (P, C)) := rfl
  refine ⟨?_, ?_, ?_, ?_⟩
  · intro e hne
    rw [hch]
    simp [List.mem_filter, hne]
  · rw [hch]
    simp [List.mem_filter]
  · rintro ⟨d, hd, hd1⟩
    have hany : ((st.channels.filter (fun d => d != (P, C))).any
        (fun d => d.1 == P)) = true := by
      rw [List.any_eq_true]
      refine ⟨d, ?_, ?_⟩
      · rw [← hch]; exact hd
      · simp [hd1]
    show (if ((st.channels.filter (fun d => d != (P, C))).any (fun d => d.1 == P))
        then st.sessions else st.sessions.filter (fun d => d.1 != P)) = st.sessions
    rw [hany]
    simp
  · intro hall
    have hany : ((st.channels.filter (fun d => d != (P, C))).any
        (fun d => d.1 == P)) = false := by
      rw [List.any_eq_false]
      intro d hd
      have := hall d (by rw [hch]; exact hd)
      simp
      exact this
    have hsess : sessionOf (CloseChannelWithUser st P C).2 P = none := by
      show sessionOf
        ⟨if ((st.channels.filter (fun d => d != (P, C))).any (fun d => d.1 == P))
            then st.sessions else st.sessions.filter (fun d => d.1 != P),
         st.channels.filter (fun d => d != (P, C)), st.inbox, st.callbacks,
         st.outbox, st.nextSeq⟩ P = none
      rw [hany]
      simp only [if_neg Bool.false_ne_true, sessionOf]
      rw [find?_key_filter_self]
      rfl
    refine ⟨hsess, ?_⟩
    intro m hm
    simp only [onInboundMessage, hm, hsess]

/-- Witness for C8 at a concrete state with channels (7, 1), (7, 2) and
(9, 5): closing (7, 1) leaves (7, 2) and (9, 5) open and the session table
untouched; closing (7, 2) as well closes the session with peer 7, and a new
message from peer 7 then posts a session-request callback. -/
theorem c8_close_channel_then_session_witness :
    ((9, 5) ≠ ((7 : SteamNetworkingIdentity), (1 : Int))) ∧
    ((9, 5) ∈ (CloseChannelWithUser channelsState 7 1).2.channels ↔
      (9, 5) ∈ channelsState.channels) ∧
    (7, 1) ∉ (CloseChannelWithUser channelsState 7 1).2.channels ∧
    (∃ d ∈ (CloseChannelWithUser channelsState 7 1).2.channels, d.1 = 7) ∧
    (CloseChannelWithUser channelsState 7 1).2.sessions = channelsState.sessions ∧
    (∀ d ∈ (CloseChannelWithUser (CloseChannelWithUser channelsState 7 1).2 7 2).2.channels,
        d.1 ≠ 7) ∧
    sessionOf (CloseChannelWithUser (CloseChannelWithUser channelsState 7 1).2 7 2).2 7
      = none ∧
    msgA.m_identityPeer = 7 ∧
    (onInboundMessage
        (CloseChannelWithUser (CloseChannelWithUser channelsState 7 1).2 7 2).2
        msgA).callbacks
      = (CloseChannelWithUser (CloseChannelWithUser channelsState 7 1).2 7 2).2.callbacks
          ++ [Callback.sessionRequest 7] := by
  have h1 := c8_close_channel_then_session channelsState 7 1
  have h2 := c8_close_channel_then_session (CloseChannelWithUser channelsState 7 1).2 7 2
  have h2f := h2.2.2.2 (by decide)
  exact ⟨by decide, h1.1 (9, 5) (by decide), h1.2.1, by decide,
    h1.2.2.1 (by decide), by decide, h2f.1, by decide, h2f.2 msgA (by decide)⟩

/-- C9: under `#pragma pack(push, 1)` the two callback structures are laid
out tightly packed: for any member sizes and (positive) alignment
requirements of the externally declared member types, the single declared
field sits at offset 0 and the struct size equals the field size — no
padding between or after fields, field order as declared. -/
theorem c9_callback_structs_tightly_packed
    (idSize idAlign infoSize infoAlign : Nat)
    (h1 : 1 ≤ idAlign) (h2 : 1 ≤ infoAlign) :
    (SteamNetworkingMessagesSessionRequest_t_layout idSize idAlign).offsets = [0] ∧
    (SteamNetworkingMessagesSessionRequest_t_layout idSize idAlign).size = idSize ∧
    (SteamNetworkingMessagesSessionRequest_t_layout idSize idAlign).fieldSizes
      = [idSize] ∧
    (SteamNetworkingMessagesSessionFailed_t_layout infoSize infoAlign).offsets = [0] ∧
    (SteamNetworkingMessagesSessionFailed_t_layout infoSize infoAlign).size
      = infoSize ∧
    (SteamNetworkingMessagesSessionFailed_t_layout infoSize infoAlign).fieldSizes
      = [infoSize] := by
  have hm1 : min idAlign 1 = 1 := Nat.min_eq_right h1
  have hm2 : min infoAlign 1 = 1 := Nat.min_eq_right h2
  have hx1 : max idAlign 1 = idAlign := Nat.max_eq_left h1
  have hx2 : max infoAlign 1 = infoAlign := Nat.max_eq_left h2
  have hn1 : min 1 idAlign = 1 := Nat.min_eq_left h1
  have hn2 : min 1 infoAlign = 1 := Nat.min_eq_left h2
  refine ⟨?_, ?_, rfl, ?_, ?_, rfl⟩ <;>
    simp [SteamNetworkingMessagesSessionRequest_t_layout,
      SteamNetworkingMessagesSessionFailed_t_layout, structLayout, layoutFrom,
      hm1, hm2, hx1, hx2, hn1, hn2, alignUp_one]

/-- Witness for C9 at concrete member sizes and alignments. -/
theorem c9_callback_structs_tightly_packed_witness :
    (1 ≤ 4 ∧ 1 ≤ 8) ∧
    (SteamNetworkingMessagesSessionRequest_t_layout 136 4).offsets = [0] ∧
    (SteamNetworkingMessagesSessionRequest_t_layout 136 4).size = 136 ∧
    (SteamNetworkingMessagesSessionFailed_t_layout 696 8).size = 696 := by
  have h := c9_callback_structs_tightly_packed 136 4 696 8 (by decide) (by decide)
  exact ⟨⟨by decide, by decide⟩, h.1, h.2.1, h.2.2.2.2.1⟩

/-- C10: the compile-time assertion of the standalone-library configuration
holds: `STEAMNETWORKINGMESSAGES_INTERFACE_VERSION` is a 26-character string
whose character at index 25 — its last — is `'2'`. -/
theorem c10_interface_version_assert :
    STEAMNETWORKINGMESSAGES_INTERFACE_VERSION.length = 26 ∧
    STEAMNETWORKINGMESSAGES_INTERFACE_VERSION.data[25]? = some '2' := by
  decide

end NetworkCPP
